import Mathlib

/-!
Verification of the Osmosis git-sync example repository.

Shallow embedding conventions:
* Python `str` values are Lean `String` (a structure around `List Char`);
  `str.strip`, `str.lower`, `in`, `str.split` are re-implemented below on
  the character list with Python semantics (in particular, the empty string
  is a substring of every string).
* Python `float` arithmetic on the heuristic reward constants is modelled
  exactly as rational arithmetic (`ℚ`); every constant in the source is a
  small decimal and every compared value in the claims is exact.
* Python `dict` parameters whose schema is fixed by the source are modelled
  as structures (`ExtraInfo`) or association lists with first-match lookup.
* Fallible code returns `Except`.
-/

set_option maxHeartbeats 1000000
set_option linter.unusedVariables false

/-- Python's two-argument `min` builtin on numbers (kernel-reducible,
unlike the lattice `min` of `ℚ`). -/
def pyMinQ (a b : ℚ) : ℚ := if a ≤ b then a else b

/-- Python's two-argument `max` builtin on numbers. -/
def pyMaxQ (a b : ℚ) : ℚ := if b ≤ a then a else b

/-! ## Python string primitives -/

/-- `list`-level Python `str.strip`: drop leading and trailing whitespace. -/
def stripChars (l : List Char) : List Char :=
  ((l.dropWhile Char.isWhitespace).reverse.dropWhile Char.isWhitespace).reverse

/-- Python `str.strip()`. -/
def pyStrip (s : String) : String := ⟨stripChars s.data⟩

/-- Python `str.lower()` (character-wise, which is exact on the ASCII data here). -/
def pyLower (s : String) : String := ⟨s.data.map Char.toLower⟩

/-- Python `len` on a string. -/
def pyLen (s : String) : Nat := s.data.length

/-- Is `needle` a prefix of `hay`? (helper for the Python `in` operator). -/
def hasPre : List Char → List Char → Bool
  | [], _ => true
  | _ :: _, [] => false
  | a :: as, b :: bs => a == b && hasPre as bs

/-- Does `needle` occur contiguously in `hay`? (helper for the Python `in` operator). -/
def hasSub (needle : List Char) : List Char → Bool
  | [] => needle.isEmpty
  | h :: t => hasPre needle (h :: t) || hasSub needle t

/-- The Python `in` operator on strings: `pyIn needle hay` is `needle in hay`.
Note that in Python the empty string is contained in every string. -/
def pyIn (needle hay : String) : Bool := hasSub needle.data hay.data

/-- Split a character list at every character satisfying `p`, keeping empty
pieces, like Python `str.split(sep)` does for a one-character separator. -/
def splitPred (p : Char → Bool) : List Char → List (List Char)
  | [] => [[]]
  | h :: t =>
    match splitPred p t with
    | [] => [[]]
    | r :: rs => if p h then [] :: r :: rs else (h :: r) :: rs

/-- Python `str.split(".")`-style split on one character. -/
def splitOnChar (c : Char) (l : List Char) : List (List Char) :=
  splitPred (fun x => x == c) l

/-- Python `str.split()` with no argument: split on whitespace runs,
discarding empty pieces. -/
def splitWhitespace (l : List Char) : List (List Char) :=
  (splitPred Char.isWhitespace l).filter (fun w => ¬ w.isEmpty)

/-! ## src/reward_fn/compute_reward.py

`extra_info` is an optional mapping consulted through `.get`/`in` with the
schema documented in the source (engagement metrics, key concepts, learning
objectives, quality scores, content flags); it is modelled as an optional
structure with those fields, absent keys being the documented defaults.
`None` and the (falsy) empty dict are both `none`. -/

structure ExtraInfo where
  engagement_score : ℚ := 0
  key_concepts : Option (List String) := none
  learning_objectives : Option (List String) := none
  clarity_score : ℚ := 0
  inappropriate : Bool := false
  off_topic : Bool := false

/-- `engagement_quality_reward` from `src/reward_fn/compute_reward.py`. -/
def engagement_quality_reward (solution_str ground_truth : String)
    (extra_info : Option ExtraInfo) : ℚ :=
  if pyStrip solution_str = "" then 0
  else
    let reward : ℚ := 0.1
    let solution_length : ℚ := (pyLen (pyStrip solution_str) : ℚ)
    let truth_length : ℚ := (pyLen (pyStrip ground_truth) : ℚ)
    let reward := if truth_length > 0 then
        reward + pyMinQ (solution_length / truth_length) 2 * 0.3
      else reward
    match extra_info with
    | some ei => reward + pyMinQ (ei.engagement_score * 0.2) 1
    | none => reward

/-- `correctness_reward` from `src/reward_fn/compute_reward.py`. -/
def correctness_reward (solution_str ground_truth : String)
    (extra_info : Option ExtraInfo) : ℚ :=
  let solution_clean := pyLower (pyStrip solution_str)
  let truth_clean := pyLower (pyStrip ground_truth)
  if solution_clean = truth_clean then 5
  else if pyIn solution_clean truth_clean || pyIn truth_clean solution_clean then 2.5
  else
    match extra_info with
    | some ei =>
      match ei.key_concepts with
      | some key_concepts =>
        let match_count :=
          ((key_concepts.map pyLower).filter (fun c => pyIn c solution_clean)).length
        if match_count > 0 then (match_count : ℚ) * 1 else 0
      | none => 0
    | none => 0

def explanation_keywords : List String :=
  ["because", "therefore", "since", "due to", "as a result",
   "this means", "in other words", "for example"]

def structure_markers : List String := ["1.", "2.", "•", "-", "first", "second"]

/-- `explanation_quality_reward` from `src/reward_fn/compute_reward.py`. -/
def explanation_quality_reward (solution_str ground_truth : String)
    (extra_info : Option ExtraInfo) : ℚ :=
  let solution_clean := pyStrip solution_str
  if solution_clean = "" then 0
  else
    let keyword_count :=
      (explanation_keywords.filter (fun k => pyIn k (pyLower solution_clean))).length
    let reward := pyMinQ ((keyword_count : ℚ) * 0.5) 2
    let reward := if structure_markers.any (fun m => pyIn m solution_clean) then
        reward + 1
      else reward
    match extra_info with
    | some ei =>
      match ei.learning_objectives with
      | some objectives =>
        let covered :=
          (objectives.filter (fun o => pyIn (pyLower o) (pyLower solution_clean))).length
        reward + (covered : ℚ) * 0.8
      | none => reward
    | none => reward

def creativity_indicators : List String :=
  ["innovative", "creative", "alternative", "another way",
   "different approach", "for instance", "imagine"]

/-- `creativity_reward` from `src/reward_fn/compute_reward.py`. -/
def creativity_reward (solution_str ground_truth : String)
    (extra_info : Option ExtraInfo) : ℚ :=
  let solution_clean := pyStrip solution_str
  let truth_clean := pyStrip ground_truth
  if solution_clean = "" then 0
  else
    let reward : ℚ := 0
    let reward := if pyLower solution_clean ≠ pyLower truth_clean ∧
        (pyLen solution_clean : ℚ) > (pyLen truth_clean : ℚ) * 0.8 then
        reward + 1.5
      else reward
    let creative_count :=
      (creativity_indicators.filter (fun i => pyIn i (pyLower solution_clean))).length
    let reward := reward + pyMinQ ((creative_count : ℚ) * 0.7) 2
    let reward := if pyIn "alternatively" (pyLower solution_clean) ||
        pyIn "option" (pyLower solution_clean) then
        reward + 1
      else reward
    reward

def clarity_transitions : List String :=
  ["first", "next", "then", "finally", "in conclusion"]

/-- `clarity_reward` from `src/reward_fn/compute_reward.py`. -/
def clarity_reward (solution_str ground_truth : String)
    (extra_info : Option ExtraInfo) : ℚ :=
  let solution_clean := pyStrip solution_str
  if solution_clean = "" then 0
  else
    let sentences := splitOnChar '.' solution_clean.data
    let reward : ℚ := if sentences.length > 1 ∧ stripChars ((sentences.getLast?).getD []) = [] then
        0.5
      else 0
    let word_count := (splitWhitespace solution_clean.data).length
    let reward := if 10 ≤ word_count ∧ word_count ≤ 100 then reward + 1
      else if 5 ≤ word_count ∧ word_count ≤ 150 then reward + 0.5
      else reward
    let reward := if clarity_transitions.any (fun t => pyIn t (pyLower solution_clean)) then
        reward + 0.8
      else reward
    match extra_info with
    | some ei => reward + ei.clarity_score * 1.5
    | none => reward

def spam_indicators : List String := ["spam", "click here", "buy now", "free money"]

/-- `appropriateness_penalty` from `src/reward_fn/compute_reward.py`. -/
def appropriateness_penalty (solution_str ground_truth : String)
    (extra_info : Option ExtraInfo) : ℚ :=
  let solution_clean := pyLower (pyStrip solution_str)
  if solution_clean = "" then -1
  else
    let penalty : ℚ := 0
    let penalty := if pyLen solution_clean < 3 then penalty - 2 else penalty
    let penalty := if spam_indicators.any (fun i => pyIn i solution_clean) then
        penalty - 5
      else penalty
    match extra_info with
    | some ei =>
      let penalty := if ei.inappropriate then penalty - 10 else penalty
      if ei.off_topic then penalty - 3 else penalty
    | none => penalty

/-- `compute_reward` from `src/reward_fn/compute_reward.py`. -/
def compute_reward (solution_str ground_truth : String)
    (extra_info : Option ExtraInfo) : ℚ :=
  let reward : ℚ := 0
  let reward := reward + engagement_quality_reward solution_str ground_truth extra_info
  let reward := reward + correctness_reward solution_str ground_truth extra_info
  let reward := reward + explanation_quality_reward solution_str ground_truth extra_info
  let reward := reward + creativity_reward solution_str ground_truth extra_info
  let reward := reward + clarity_reward solution_str ground_truth extra_info
  let reward := reward + appropriateness_penalty solution_str ground_truth extra_info
  pyMaxQ (-20) (pyMinQ 50 reward)

/-- C1: for every solution string, ground-truth string and optional
`extra_info`, `compute_reward` returns normally (it is a total function of
its inputs in this embedding; the only division is guarded by
`truth_length > 0`) and its result lies in the closed interval
`[-20.0, 50.0]`. -/
theorem compute_reward_bounded (solution_str ground_truth : String)
    (extra_info : Option ExtraInfo) :
    -20 ≤ compute_reward solution_str ground_truth extra_info ∧
      compute_reward solution_str ground_truth extra_info ≤ 50 := by
  have h : ∀ r : ℚ, -20 ≤ pyMaxQ (-20) (pyMinQ 50 r) ∧ pyMaxQ (-20) (pyMinQ 50 r) ≤ 50 := by
    intro r
    unfold pyMaxQ pyMinQ
    split_ifs <;> constructor <;> linarith
  exact h _

/-- The six component values of `compute_reward "" "anything" none`,
shared by the counterexample and the amended value below. -/
theorem compute_reward_empty_components :
    compute_reward "" "anything" none =
      pyMaxQ (-20) (pyMinQ 50 (0 + 0 + 2.5 + 0 + 0 + 0 + -1)) := by
  have h1 : engagement_quality_reward "" "anything" none = 0 := by
    unfold engagement_quality_reward
    rw [if_pos (by decide)]
  have h2 : correctness_reward "" "anything" none = 2.5 := by
    unfold correctness_reward
    rw [if_neg (by decide), if_pos (by decide)]
  have h3 : explanation_quality_reward "" "anything" none = 0 := by
    unfold explanation_quality_reward
    rw [if_pos (by decide)]
  have h4 : creativity_reward "" "anything" none = 0 := by
    unfold creativity_reward
    rw [if_pos (by decide)]
  have h5 : clarity_reward "" "anything" none = 0 := by
    unfold clarity_reward
    rw [if_pos (by decide)]
  have h6 : appropriateness_penalty "" "anything" none = -1 := by
    unfold appropriateness_penalty
    rw [if_pos (by decide)]
  unfold compute_reward
  rw [h1, h2, h3, h4, h5, h6]

/-- C2, counterexample: `compute_reward "" "anything" None` is not `-1.0`.
In Python the empty string is a substring of every string, so
`correctness_reward` takes its containment branch and contributes `2.5`. -/
theorem compute_reward_empty_cex :
    ¬ compute_reward "" "anything" none = -1 := by
  rw [compute_reward_empty_components]
  unfold pyMaxQ pyMinQ
  norm_num

/-- C2, amended: `compute_reward "" "anything" None` returns exactly `1.5`:
the empty-solution appropriateness penalty `-1.0` applies, every other
sub-rule short-circuits to `0.0` on the empty solution except
`correctness_reward`, which returns `2.5` because the cleaned empty solution
is (in Python) contained in the cleaned ground truth. -/
theorem compute_reward_empty_value :
    compute_reward "" "anything" none = 1.5 := by
  rw [compute_reward_empty_components]
  unfold pyMaxQ pyMinQ
  norm_num

/-- The correctness sub-rule as the specification words it: exact
case/whitespace-insensitive match → 5.0; substring containment in either
direction → 2.5; else, when `key_concepts` is supplied, 1.0 per concept whose
lowercase text occurs in the cleaned solution; else 0.0. -/
def correctness_spec (solution_str ground_truth : String)
    (extra_info : Option ExtraInfo) : ℚ :=
  if pyLower (pyStrip solution_str) = pyLower (pyStrip ground_truth) then 5
  else if pyIn (pyLower (pyStrip solution_str)) (pyLower (pyStrip ground_truth)) ||
      pyIn (pyLower (pyStrip ground_truth)) (pyLower (pyStrip solution_str)) then 2.5
  else
    match extra_info with
    | some ei =>
      match ei.key_concepts with
      | some ks =>
        ((ks.filter (fun k => pyIn (pyLower k) (pyLower (pyStrip solution_str)))).length : ℚ) * 1
      | none => 0
    | none => 0

theorem correctness_count_map (ks : List String) (sc : String) :
    ((ks.map pyLower).filter (fun c => pyIn c sc)).length
      = (ks.filter (fun k => pyIn (pyLower k) sc)).length := by
  induction ks with
  | nil => rfl
  | cons k t ih =>
    by_cases h : pyIn (pyLower k) sc = true <;>
      simp [List.filter, h, ih]

theorem correctness_count_pos (ks : List String) (sc : String) :
    (if ((ks.map pyLower).filter (fun c => pyIn c sc)).length > 0 then
        (((ks.map pyLower).filter (fun c => pyIn c sc)).length : ℚ) * 1
      else 0)
      = ((ks.filter (fun k => pyIn (pyLower k) sc)).length : ℚ) * 1 := by
  rw [correctness_count_map]
  rcases h : (ks.filter (fun k => pyIn (pyLower k) sc)).length with _ | n
  · simp
  · rw [if_pos (by omega)]

/-- C3: for every solution and ground truth, `correctness_reward` matches the
specification's characterization (5.0 for an exact cleaned match, 2.5 for
substring containment in either direction, else 1.0 per matched key concept,
else 0.0); in particular
`correctness_reward "partial" "this is a partial answer" None = 2.5`. -/
theorem correctness_reward_spec :
    (∀ (solution_str ground_truth : String) (extra_info : Option ExtraInfo),
      correctness_reward solution_str ground_truth extra_info
        = correctness_spec solution_str ground_truth extra_info) ∧
    correctness_reward "partial" "this is a partial answer" none = 2.5 := by
  constructor
  · intro sol gt info
    simp only [correctness_reward, correctness_spec]
    split_ifs with h1 h2
    · rfl
    · rfl
    · cases info with
      | none => rfl
      | some ei =>
        cases hk : ei.key_concepts with
        | none => simp only [hk]
        | some ks =>
          simp only [hk]
          exact correctness_count_pos ks (pyLower (pyStrip sol))
  · simp only [correctness_reward]
    rw [if_neg (by decide), if_pos (by decide)]

/-- The appropriateness sub-rule as the specification words it: `-1.0` alone
for an empty (stripped) solution; otherwise the sum of the applicable
penalties (`-2.0` short, `-5.0` spam, `-10.0` inappropriate flag, `-3.0`
off-topic flag), `0.0` when none apply. -/
def appropriateness_spec (solution_str : String)
    (extra_info : Option ExtraInfo) : ℚ :=
  if pyLower (pyStrip solution_str) = "" then -1
  else
    (if pyLen (pyStrip solution_str) < 3 then (-2 : ℚ) else 0) +
    (if spam_indicators.any (fun i => pyIn i (pyLower (pyStrip solution_str))) then
        (-5 : ℚ)
      else 0) +
    (if (match extra_info with | some ei => ei.inappropriate | none => false) then
        (-10 : ℚ)
      else 0) +
    (if (match extra_info with | some ei => ei.off_topic | none => false) then
        (-3 : ℚ)
      else 0)

theorem pyLen_pyLower (s : String) : pyLen (pyLower s) = pyLen s := by
  simp [pyLen, pyLower]

/-- C4: `appropriateness_penalty` returns exactly `-1.0` on an empty stripped
solution (short-circuiting all other penalties), and otherwise the sum of all
applicable penalties, `0.0` when none apply. -/
theorem appropriateness_penalty_spec
    (solution_str ground_truth : String) (extra_info : Option ExtraInfo) :
    appropriateness_penalty solution_str ground_truth extra_info
      = appropriateness_spec solution_str extra_info := by
  simp only [appropriateness_penalty, appropriateness_spec]
  rw [pyLen_pyLower]
  cases extra_info with
  | none =>
    simp only [Bool.false_eq_true, if_false]
    split_ifs <;> norm_num
  | some ei =>
    dsimp only
    split_ifs <;> norm_num

/-! ## src/mcp/tools/api_helpers.py -/

/-- `math.ceil(total_items / per_page) if total_items > 0 else 1` from
`paginate_results` (exact ceiling division on the integer inputs). -/
def total_pages_of (total_items per_page : Nat) : Nat :=
  if total_items > 0 then (total_items + per_page - 1) / per_page else 1

structure PaginateResult (α : Type) where
  items : List α
  current_page : Nat
  per_page : Nat
  total_items : Nat
  total_pages : Nat
  has_next : Bool
  has_prev : Bool
  deriving DecidableEq

/-- `paginate_results` from `src/mcp/tools/api_helpers.py`; the Python slice
`items[start_index:end_index]` with `start_index = (page-1)*per_page` and
`end_index = start_index + per_page` is `drop`/`take` (for `page ≥ 1` the
indices are non-negative, which is the claim's precondition). -/
def paginate_results {α : Type} (items : List α) (page per_page : Nat) :
    PaginateResult α :=
  let total_items := items.length
  let total_pages := total_pages_of total_items per_page
  let start_index := (page - 1) * per_page
  let paginated_items := (items.drop start_index).take per_page
  ⟨paginated_items, page, per_page, total_items, total_pages,
    decide (page < total_pages), decide (page > 1)⟩

/-- The concatenation, in order, of the item lists of pages
`1, 2, …, total_pages`. -/
def allPages {α : Type} (items : List α) (per_page : Nat) : List α :=
  (List.range (total_pages_of items.length per_page)).flatMap
    (fun i => (paginate_results items (i + 1) per_page).items)

theorem flatMap_chunks {α : Type} (pp : Nat) :
    ∀ (n : Nat) (l : List α), l.length ≤ n * pp →
      (List.range n).flatMap (fun i => (l.drop (i * pp)).take pp) = l := by
  intro n
  induction n with
  | zero =>
    intro l h
    have hl : l = [] := List.eq_nil_of_length_eq_zero (by omega)
    subst hl
    rfl
  | succ n ih =>
    intro l h
    have hshift : ∀ i : Nat, (i + 1) * pp = pp + i * pp := by
      intro i
      ring
    rw [List.range_succ_eq_map, List.flatMap_cons, List.flatMap_map]
    simp only [Nat.succ_eq_add_one, hshift, ← List.drop_drop, Nat.zero_mul,
      List.drop_zero]
    have hs : (n + 1) * pp = n * pp + pp := by ring
    rw [ih (l.drop pp) (by simp only [List.length_drop]; omega)]
    exact List.take_append_drop pp l

theorem length_le_total_pages_mul (t pp : Nat) (hpp : 0 < pp) :
    t ≤ total_pages_of t pp * pp := by
  unfold total_pages_of
  split_ifs with h
  · have hm : (t + pp - 1) % pp < pp := Nat.mod_lt _ hpp
    have hd := Nat.div_add_mod (t + pp - 1) pp
    rw [Nat.mul_comm]
    omega
  · omega

/-- C8: for every list and integers `page ≥ 1`, `per_page ≥ 1`,
`paginate_results` returns at most `per_page` items, `has_next` is
`page < total_pages`, `has_prev` is `page > 1`, and concatenating the items
of pages `1 … total_pages` in order reproduces the original list. -/
theorem paginate_results_spec {α : Type} (items : List α) (page per_page : Nat)
    (hpage : 1 ≤ page) (hpp : 1 ≤ per_page) :
    (paginate_results items page per_page).items.length ≤ per_page ∧
    (paginate_results items page per_page).has_next
      = decide (page < total_pages_of items.length per_page) ∧
    (paginate_results items page per_page).has_prev = decide (page > 1) ∧
    allPages items per_page = items := by
  refine ⟨?_, rfl, rfl, ?_⟩
  · simp only [paginate_results, List.length_take]
    exact min_le_left _ _
  · unfold allPages paginate_results
    simp only [Nat.add_sub_cancel]
    exact flatMap_chunks per_page _ items
      (length_le_total_pages_mul items.length per_page hpp)

/-- C8 witness: a concrete instance of `paginate_results_spec`. -/
theorem paginate_results_witness :
    (paginate_results [10, 20, 30] 2 2).items.length ≤ 2 ∧
      allPages [10, 20, 30] 2 = [10, 20, 30] := by
  have h := paginate_results_spec [10, 20, 30] 2 2 (by norm_num) (by norm_num)
  exact ⟨h.1, h.2.2.2⟩

/-! ## src/mcp/tools/ml_utils.py -/

theorem pyMinQ_le_left (a b : ℚ) : pyMinQ a b ≤ a := by
  unfold pyMinQ; split_ifs <;> linarith

theorem pyMinQ_le_right (a b : ℚ) : pyMinQ a b ≤ b := by
  unfold pyMinQ; split_ifs <;> linarith

theorem pyMinQ_eq_or (a b : ℚ) : pyMinQ a b = a ∨ pyMinQ a b = b := by
  unfold pyMinQ
  split_ifs
  · exact Or.inl rfl
  · exact Or.inr rfl

theorem pyMaxQ_le_left (a b : ℚ) : a ≤ pyMaxQ a b := by
  unfold pyMaxQ; split_ifs <;> linarith

theorem pyMaxQ_le_right (a b : ℚ) : b ≤ pyMaxQ a b := by
  unfold pyMaxQ; split_ifs <;> linarith

theorem pyMaxQ_eq_or (a b : ℚ) : pyMaxQ a b = a ∨ pyMaxQ a b = b := by
  unfold pyMaxQ
  split_ifs
  · exact Or.inl rfl
  · exact Or.inr rfl

theorem foldl_pyMinQ_le_init : ∀ (l : List ℚ) (a : ℚ), l.foldl pyMinQ a ≤ a := by
  intro l
  induction l with
  | nil => intro a; exact le_refl a
  | cons x t ih =>
    intro a
    exact le_trans (ih (pyMinQ a x)) (pyMinQ_le_left a x)

theorem foldl_pyMinQ_le_mem :
    ∀ (l : List ℚ) (a x : ℚ), x ∈ l → l.foldl pyMinQ a ≤ x := by
  intro l
  induction l with
  | nil => intro a x hx; exact absurd hx (List.not_mem_nil x)
  | cons y t ih =>
    intro a x hx
    rcases List.mem_cons.mp hx with rfl | hx
    · exact le_trans (foldl_pyMinQ_le_init t (pyMinQ a x)) (pyMinQ_le_right a x)
    · exact ih (pyMinQ a y) x hx

theorem foldl_pyMinQ_mem :
    ∀ (l : List ℚ) (a : ℚ), l.foldl pyMinQ a = a ∨ l.foldl pyMinQ a ∈ l := by
  intro l
  induction l with
  | nil => intro a; exact Or.inl rfl
  | cons y t ih =>
    intro a
    rw [List.foldl_cons]
    rcases ih (pyMinQ a y) with h | h
    · rcases pyMinQ_eq_or a y with h2 | h2
      · exact Or.inl (h.trans h2)
      · exact Or.inr (by rw [h, h2]; exact List.mem_cons_self y t)
    · exact Or.inr (List.mem_cons_of_mem y h)

theorem foldl_pyMaxQ_init_le : ∀ (l : List ℚ) (a : ℚ), a ≤ l.foldl pyMaxQ a := by
  intro l
  induction l with
  | nil => intro a; exact le_refl a
  | cons x t ih =>
    intro a
    exact le_trans (pyMaxQ_le_left a x) (ih (pyMaxQ a x))

theorem foldl_pyMaxQ_mem_le :
    ∀ (l : List ℚ) (a x : ℚ), x ∈ l → x ≤ l.foldl pyMaxQ a := by
  intro l
  induction l with
  | nil => intro a x hx; exact absurd hx (List.not_mem_nil x)
  | cons y t ih =>
    intro a x hx
    rcases List.mem_cons.mp hx with rfl | hx
    · exact le_trans (pyMaxQ_le_right a x) (foldl_pyMaxQ_init_le t (pyMaxQ a x))
    · exact ih (pyMaxQ a y) x hx

theorem foldl_pyMaxQ_mem :
    ∀ (l : List ℚ) (a : ℚ), l.foldl pyMaxQ a = a ∨ l.foldl pyMaxQ a ∈ l := by
  intro l
  induction l with
  | nil => intro a; exact Or.inl rfl
  | cons y t ih =>
    intro a
    rw [List.foldl_cons]
    rcases ih (pyMaxQ a y) with h | h
    · rcases pyMaxQ_eq_or a y with h2 | h2
      · exact Or.inl (h.trans h2)
      · exact Or.inr (by rw [h, h2]; exact List.mem_cons_self y t)
    · exact Or.inr (List.mem_cons_of_mem y h)

/-- Python's `min` over a non-empty list (Python raises on an empty list;
the claim restricts to non-empty data, where the `0` default is never
reached). -/
def pyMinL (l : List ℚ) : ℚ :=
  match l with
  | [] => 0
  | x :: xs => xs.foldl pyMinQ x

/-- Python's `max` over a non-empty list. -/
def pyMaxL (l : List ℚ) : ℚ :=
  match l with
  | [] => 0
  | x :: xs => xs.foldl pyMaxQ x

theorem pyMinL_le_mem (l : List ℚ) (x : ℚ) (hx : x ∈ l) : pyMinL l ≤ x := by
  cases l with
  | nil => exact absurd hx (List.not_mem_nil x)
  | cons y t =>
    rcases List.mem_cons.mp hx with rfl | hx
    · exact foldl_pyMinQ_le_init t x
    · exact foldl_pyMinQ_le_mem t y x hx

theorem pyMinL_mem (l : List ℚ) (h : l ≠ []) : pyMinL l ∈ l := by
  cases l with
  | nil => exact absurd rfl h
  | cons y t =>
    rcases foldl_pyMinQ_mem t y with h2 | h2
    · rw [pyMinL, h2]; exact List.mem_cons_self y t
    · exact List.mem_cons_of_mem y h2

theorem pyMinL_eq (l : List ℚ) (c : ℚ) (hc : c ∈ l) (hall : ∀ x ∈ l, c ≤ x) :
    pyMinL l = c := by
  have hne : l ≠ [] := by intro h; subst h; exact absurd hc (List.not_mem_nil c)
  exact le_antisymm (pyMinL_le_mem l c hc) (hall _ (pyMinL_mem l hne))

theorem pyMaxL_mem_le (l : List ℚ) (x : ℚ) (hx : x ∈ l) : x ≤ pyMaxL l := by
  cases l with
  | nil => exact absurd hx (List.not_mem_nil x)
  | cons y t =>
    rcases List.mem_cons.mp hx with rfl | hx
    · exact foldl_pyMaxQ_init_le t x
    · exact foldl_pyMaxQ_mem_le t y x hx

theorem pyMaxL_mem (l : List ℚ) (h : l ≠ []) : pyMaxL l ∈ l := by
  cases l with
  | nil => exact absurd rfl h
  | cons y t =>
    rcases foldl_pyMaxQ_mem t y with h2 | h2
    · rw [pyMaxL, h2]; exact List.mem_cons_self y t
    · exact List.mem_cons_of_mem y h2

theorem pyMaxL_eq (l : List ℚ) (c : ℚ) (hc : c ∈ l) (hall : ∀ x ∈ l, x ≤ c) :
    pyMaxL l = c := by
  have hne : l ≠ [] := by intro h; subst h; exact absurd hc (List.not_mem_nil c)
  exact le_antisymm (hall _ (pyMaxL_mem l hne)) (pyMaxL_mem_le l c hc)

/-- `point.get(feature, 0)`: a data point is a `str → float` mapping,
modelled as an association list with first-match lookup. -/
def getF : List (String × ℚ) → String → ℚ
  | [], _ => 0
  | (k, v) :: t, f => if k == f then v else getF t f

/-- `point[feature] = value` on a (copied) data point: replace the first
binding of the key, or append a new one. -/
def setF : List (String × ℚ) → String → ℚ → List (String × ℚ)
  | [], f, v => [(f, v)]
  | (k, w) :: t, f, v => if k == f then (k, v) :: t else (k, w) :: setF t f v

/-- `values = [point.get(feature, 0) for point in data]` from
`normalize_features`. -/
def featureValues (data : List (List (String × ℚ))) (feature : String) : List ℚ :=
  data.map (fun point => getF point feature)

/-- `feature_stats[feature]["min"]` from `normalize_features`. -/
def feature_min (data : List (List (String × ℚ))) (feature : String) : ℚ :=
  pyMinL (featureValues data feature)

/-- `feature_stats[feature]["max"]` from `normalize_features`. -/
def feature_max (data : List (List (String × ℚ))) (feature : String) : ℚ :=
  pyMaxL (featureValues data feature)

/-- The per-feature body of the normalization loop in `normalize_features`:
`(point.get(feature, 0) - min_val) / (max_val - min_val)` when
`max_val - min_val != 0`, else `0.0`. -/
def normalizeValue (data : List (List (String × ℚ))) (feature : String)
    (point : List (String × ℚ)) : ℚ :=
  if feature_max data feature - feature_min data feature ≠ 0 then
    (getF point feature - feature_min data feature) /
      (feature_max data feature - feature_min data feature)
  else 0

/-- `normalize_features` from `src/mcp/tools/ml_utils.py`. -/
def normalize_features (data : List (List (String × ℚ)))
    (feature_names : List String) : List (List (String × ℚ)) :=
  data.map (fun point =>
    feature_names.foldl
      (fun normalized_point feature =>
        setF normalized_point feature (normalizeValue data feature point))
      point)

theorem getF_setF_self (p : List (String × ℚ)) (f : String) (v : ℚ) :
    getF (setF p f v) f = v := by
  induction p with
  | nil => simp [getF, setF]
  | cons kv t ih =>
    obtain ⟨k, w⟩ := kv
    by_cases h : (k == f) = true
    · simp [getF, setF, h]
    · simp only [setF, h, Bool.false_eq_true, if_false, getF]
      exact ih

theorem getF_setF_ne (p : List (String × ℚ)) (g f : String) (v : ℚ)
    (h : g ≠ f) : getF (setF p g v) f = getF p f := by
  induction p with
  | nil => simp [getF, setF, h]
  | cons kv t ih =>
    obtain ⟨k, w⟩ := kv
    by_cases hk : (k == g) = true
    · have hkg : k = g := by simpa using hk
      have hkf : (k == f) = false := by simp [hkg, h]
      simp only [setF, hk, if_true, getF, hkf, Bool.false_eq_true, if_false]
    · simp only [setF, hk, Bool.false_eq_true, if_false, getF]
      by_cases hf : (k == f) = true
      · simp [hf]
      · simp [hf, ih]


theorem getF_foldl_not_mem (data : List (List (String × ℚ)))
    (point : List (String × ℚ)) :
    ∀ (fs : List String) (f : String) (np : List (String × ℚ)), f ∉ fs →
      getF (fs.foldl
        (fun normalized_point feature =>
          setF normalized_point feature (normalizeValue data feature point))
        np) f = getF np f := by
  intro fs
  induction fs with
  | nil => intro f np h; rfl
  | cons g t ih =>
    intro f np h
    rw [List.foldl_cons]
    rw [ih f _ (fun hf => h (List.mem_cons_of_mem g hf))]
    exact getF_setF_ne np g f _ (fun he => h (he ▸ List.mem_cons_self g t))

theorem getF_foldl_mem (data : List (List (String × ℚ)))
    (point : List (String × ℚ)) :
    ∀ (fs : List String) (f : String) (np : List (String × ℚ)), f ∈ fs →
      getF (fs.foldl
        (fun normalized_point feature =>
          setF normalized_point feature (normalizeValue data feature point))
        np) f = normalizeValue data f point := by
  intro fs
  induction fs with
  | nil => intro f np h; exact absurd h (List.not_mem_nil f)
  | cons g t ih =>
    intro f np h
    rw [List.foldl_cons]
    by_cases hf : f ∈ t
    · exact ih f _ hf
    · have hfg : f = g := by
        rcases List.mem_cons.mp h with h1 | h2
        · exact h1
        · exact absurd h2 hf
      subst hfg
      rw [getF_foldl_not_mem data point t f _ hf, getF_setF_self]

theorem featureValues_normalize (data : List (List (String × ℚ)))
    (feature_names : List String) (f : String) (hf : f ∈ feature_names) :
    featureValues (normalize_features data feature_names) f
      = data.map (fun point => normalizeValue data f point) := by
  unfold featureValues normalize_features
  rw [List.map_map]
  exact List.map_congr_left
    (fun point _ => getF_foldl_mem data point feature_names f point hf)

/-- C9: after `normalize_features`, for every listed feature of a non-empty
dataset, the normalized feature values have minimum `0.0` and maximum `1.0`,
except when all input values of that feature are equal, in which case every
normalized value is exactly `0.0`. -/
theorem normalize_features_spec (data : List (List (String × ℚ)))
    (feature_names : List String) (f : String)
    (hdata : data ≠ []) (hf : f ∈ feature_names) :
    ((∀ x ∈ featureValues data f, ∀ y ∈ featureValues data f, x = y) →
      ∀ z ∈ featureValues (normalize_features data feature_names) f, z = 0) ∧
    (¬ (∀ x ∈ featureValues data f, ∀ y ∈ featureValues data f, x = y) →
      pyMinL (featureValues (normalize_features data feature_names) f) = 0 ∧
      pyMaxL (featureValues (normalize_features data feature_names) f) = 1) := by
  have hcol := featureValues_normalize data feature_names f hf
  have hvne : featureValues data f ≠ [] := by
    cases data with
    | nil => exact absurd rfl hdata
    | cons p t => simp [featureValues]
  have hminmem : feature_min data f ∈ featureValues data f := pyMinL_mem _ hvne
  have hmaxmem : feature_max data f ∈ featureValues data f := pyMaxL_mem _ hvne
  constructor
  · intro hall z hz
    rw [hcol] at hz
    obtain ⟨p, hp, rfl⟩ := List.mem_map.mp hz
    have heq : feature_max data f = feature_min data f :=
      hall _ hmaxmem _ hminmem
    unfold normalizeValue
    rw [if_neg (by rw [heq]; simp)]
  · intro hne
    have hlt : feature_min data f < feature_max data f := by
      rcases lt_or_le (feature_min data f) (feature_max data f) with h | h
      · exact h
      · exfalso
        apply hne
        intro x hx y hy
        have hx1 : feature_min data f ≤ x := pyMinL_le_mem _ _ hx
        have hx2 : x ≤ feature_max data f := pyMaxL_mem_le _ _ hx
        have hy1 : feature_min data f ≤ y := pyMinL_le_mem _ _ hy
        have hy2 : y ≤ feature_max data f := pyMaxL_mem_le _ _ hy
        linarith
    have hdpos : 0 < feature_max data f - feature_min data f := by linarith
    have hdne : feature_max data f - feature_min data f ≠ 0 := ne_of_gt hdpos
    constructor
    · apply pyMinL_eq
      · rw [hcol]
        obtain ⟨p, hp, hpv⟩ := List.mem_map.mp hminmem
        apply List.mem_map.mpr
        refine ⟨p, hp, ?_⟩
        unfold normalizeValue
        rw [if_pos hdne, hpv, sub_self, zero_div]
      · intro z hz
        rw [hcol] at hz
        obtain ⟨p, hp, rfl⟩ := List.mem_map.mp hz
        unfold normalizeValue
        rw [if_pos hdne]
        apply div_nonneg _ (le_of_lt hdpos)
        have hmem : getF p f ∈ featureValues data f :=
          List.mem_map.mpr ⟨p, hp, rfl⟩
        have h2 : feature_min data f ≤ getF p f := pyMinL_le_mem _ _ hmem
        linarith
    · apply pyMaxL_eq
      · rw [hcol]
        obtain ⟨p, hp, hpv⟩ := List.mem_map.mp hmaxmem
        apply List.mem_map.mpr
        refine ⟨p, hp, ?_⟩
        unfold normalizeValue
        rw [if_pos hdne, hpv]
        exact div_self hdne
      · intro z hz
        rw [hcol] at hz
        obtain ⟨p, hp, rfl⟩ := List.mem_map.mp hz
        unfold normalizeValue
        rw [if_pos hdne]
        rw [div_le_one hdpos]
        have hmem : getF p f ∈ featureValues data f :=
          List.mem_map.mpr ⟨p, hp, rfl⟩
        have h2 : getF p f ≤ feature_max data f := pyMaxL_mem_le _ _ hmem
        linarith

/-- C9 witness: a concrete instance of `normalize_features_spec` where the
feature values `1` and `3` normalize to minimum `0` and maximum `1`. -/
theorem normalize_features_witness :
    pyMinL (featureValues
      (normalize_features [[("x", 1)], [("x", 3)]] ["x"]) "x") = 0 ∧
    pyMaxL (featureValues
      (normalize_features [[("x", 1)], [("x", 3)]] ["x"]) "x") = 1 := by
  apply (normalize_features_spec [[("x", 1)], [("x", 3)]] ["x"] "x"
    (by simp) (by simp)).2
  intro hall
  have h13 : (1 : ℚ) = 3 := by
    apply hall
    · show (1 : ℚ) ∈ featureValues [[("x", 1)], [("x", 3)]] "x"
      simp [featureValues, getF]
    · show (3 : ℚ) ∈ featureValues [[("x", 1)], [("x", 3)]] "x"
      simp [featureValues, getF]
  norm_num at h13

/-- `math.sqrt(sum(a * a for a in v))` from `calculate_similarity`
(Python floats modelled as reals; `Real.sqrt` is the exact counterpart of
`math.sqrt` on non-negative arguments). -/
noncomputable def magnitude (v : List ℝ) : ℝ :=
  Real.sqrt ((v.map (fun a => a * a)).sum)

/-- `sum(a * b for a, b in zip(vector_a, vector_b))` from
`calculate_similarity`. -/
noncomputable def dot_product (vector_a vector_b : List ℝ) : ℝ :=
  ((vector_a.zip vector_b).map (fun p => p.1 * p.2)).sum

/-- `calculate_similarity` from `src/mcp/tools/ml_utils.py`. -/
noncomputable def calculate_similarity (vector_a vector_b : List ℝ) :
    Except String ℝ :=
  if vector_a.length ≠ vector_b.length then
    Except.error "Vectors must have the same length"
  else if magnitude vector_a = 0 ∨ magnitude vector_b = 0 then
    Except.ok 0
  else
    Except.ok (dot_product vector_a vector_b /
      (magnitude vector_a * magnitude vector_b))

/-- C10: `calculate_similarity` fails (with Python's `ValueError` message)
exactly when the vector lengths differ; on equal lengths it never fails: it
returns `0.0` whenever either magnitude is zero (so the division is guarded)
and otherwise the dot product divided by the product of the magnitudes. -/
theorem calculate_similarity_spec (a b : List ℝ) :
    (a.length ≠ b.length →
      calculate_similarity a b = Except.error "Vectors must have the same length") ∧
    (a.length = b.length → (magnitude a = 0 ∨ magnitude b = 0) →
      calculate_similarity a b = Except.ok 0) ∧
    (a.length = b.length → magnitude a ≠ 0 → magnitude b ≠ 0 →
      calculate_similarity a b
        = Except.ok (dot_product a b / (magnitude a * magnitude b))) ∧
    (a.length = b.length → ∀ e, calculate_similarity a b ≠ Except.error e) := by
  refine ⟨?_, ?_, ?_, ?_⟩
  · intro h
    unfold calculate_similarity
    rw [if_pos h]
  · intro h hm
    unfold calculate_similarity
    rw [if_neg (by simp [h]), if_pos hm]
  · intro h hma hmb
    unfold calculate_similarity
    rw [if_neg (by simp [h]), if_neg (by simp [hma, hmb])]
  · intro h e
    unfold calculate_similarity
    rw [if_neg (by simp [h])]
    split_ifs <;> simp

/-- C10 witness: concrete instances of `calculate_similarity_spec` — a
length mismatch fails, and a zero-magnitude pair returns `0.0`. -/
theorem calculate_similarity_witness :
    calculate_similarity [1] []
        = Except.error "Vectors must have the same length" ∧
      calculate_similarity [0] [2] = Except.ok 0 := by
  constructor
  · exact (calculate_similarity_spec [1] []).1 (by simp)
  · exact (calculate_similarity_spec [0] [2]).2.1 rfl
      (Or.inl (by simp [magnitude]))

/-! ## src/reward_rubric/reward_rubric.py

Python `dict[str, str]`-style mappings (`model_info`, the provider default
table, dataset records) are association lists with first-match lookup;
`d[k] = v` replaces the first binding or appends; the process environment is
an explicit `String → Option String` map; the provider-keyed default table
`PROVIDER_API_KEY_ENV` (imported by the source from `osmosis_ai.rubric_eval`)
is a parameter. -/

def lookupS : List (String × String) → String → Option String
  | [], _ => none
  | (k, v) :: t, key => if k == key then some v else lookupS t key

def setS : List (String × String) → String → String → List (String × String)
  | [], key, v => [(key, v)]
  | (k, w) :: t, key, v =>
    if k == key then (k, v) :: t else (k, w) :: setS t key v

theorem lookupS_setS_self (m : List (String × String)) (key v : String) :
    lookupS (setS m key v) key = some v := by
  induction m with
  | nil => simp [lookupS, setS]
  | cons kv t ih =>
    obtain ⟨k, w⟩ := kv
    by_cases h : (k == key) = true
    · simp [setS, lookupS, h]
    · simp only [setS, h, Bool.false_eq_true, if_false, lookupS]
      exact ih

theorem lookupS_setS_ne (m : List (String × String)) (key other v : String)
    (h : key ≠ other) : lookupS (setS m key v) other = lookupS m other := by
  induction m with
  | nil => simp [lookupS, setS, h]
  | cons kv t ih =>
    obtain ⟨k, w⟩ := kv
    by_cases hk : (k == key) = true
    · have hkk : k = key := by simpa using hk
      have hko : (k == other) = false := by simp [hkk, h]
      simp only [setS, hk, if_true, lookupS, hko, Bool.false_eq_true, if_false]
    · simp only [setS, hk, Bool.false_eq_true, if_false, lookupS]
      by_cases ho : (k == other) = true
      · simp [ho]
      · simp [ho, ih]

/-- A JSONL dataset record, with the fields the source reads
(`rubric_id`, `conversation_id`, `solution_str`, `metadata`,
`original_input`); `none` is an absent key. -/
structure DatasetRecord where
  rubric_id : Option String := none
  conversation_id : Option String := none
  solution_str : Option String := none
  metadata : Option (List (String × String)) := none
  original_input : Option String := none
  deriving DecidableEq

/-- The errors `_select_record_from_jsonl` can raise, as structured values
(the source raises `CLIError` for the two not-found cases and `ValueError`
when the selected record lacks `"solution_str"`). -/
inductive SelectError where
  | conversationNotFound (conversation_id rubric_id source : String)
  | noRecords (rubric_id source : String)
  | missingSolutionStr (source : String)
  deriving DecidableEq

def SelectError.isCLIError : SelectError → Bool
  | .conversationNotFound _ _ _ => true
  | .noRecords _ _ => true
  | .missingSolutionStr _ => false

/-- The per-record filter of `_select_record_from_jsonl`: skip when the
record's stripped `rubric_id` is non-empty and differs, and (when a
`conversation_id` is requested) when the stripped `conversation_id`
differs. -/
def survives (rubric_id : String) (conversation_id : Option String)
    (record : DatasetRecord) : Bool :=
  let record_rubric := pyStrip (record.rubric_id.getD "")
  (record_rubric == "" || record_rubric == rubric_id) &&
    (match conversation_id with
     | none => true
     | some cid => pyStrip (record.conversation_id.getD "") == cid)

/-- `_select_record_from_jsonl` from `src/reward_rubric/reward_rubric.py`. -/
def _select_record_from_jsonl (records : List DatasetRecord)
    (rubric_id : String) (conversation_id : Option String) (source : String) :
    Except SelectError DatasetRecord :=
  match records.filter (survives rubric_id conversation_id) with
  | [] =>
    match conversation_id with
    | some cid =>
      if cid ≠ "" then
        Except.error (SelectError.conversationNotFound cid rubric_id source)
      else Except.error (SelectError.noRecords rubric_id source)
    | none => Except.error (SelectError.noRecords rubric_id source)
  | selected :: _ =>
    if selected.solution_str.isSome then Except.ok selected
    else Except.error (SelectError.missingSolutionStr source)

/-- The claim's wording of the record filter: the `rubric_id` field, when
present and non-blank, must equal the requested one; when a conversation id
is requested, the record's (stripped) conversation id must equal it. -/
def keepsRecord (rubric_id : String) (conversation_id : Option String)
    (record : DatasetRecord) : Bool :=
  (match record.rubric_id with
   | some s => pyStrip s == "" || pyStrip s == rubric_id
   | none => true) &&
    (match conversation_id with
     | some cid => pyStrip (record.conversation_id.getD "") == cid
     | none => true)

theorem keepsRecord_eq_survives (rubric_id : String)
    (conversation_id : Option String) (record : DatasetRecord) :
    keepsRecord rubric_id conversation_id record
      = survives rubric_id conversation_id record := by
  unfold keepsRecord survives
  cases hr : record.rubric_id with
  | none =>
    cases conversation_id <;> rfl
  | some s =>
    cases conversation_id <;> rfl

/-- C6, amended: `_select_record_from_jsonl` keeps exactly the records the
claim describes and returns the first surviving record in original order
provided it contains a `solution_str`; it raises `CLIError` if and only if no
record survives — with the conversation-specific message when a non-empty
conversation id was requested — and raises `ValueError` (not `CLIError`)
when the first surviving record lacks `solution_str`. -/
theorem select_record_spec (records : List DatasetRecord) (rubric_id : String)
    (conversation_id : Option String) (source : String) :
    (∀ record, keepsRecord rubric_id conversation_id record
        = survives rubric_id conversation_id record) ∧
    (records.filter (keepsRecord rubric_id conversation_id) = [] →
      _select_record_from_jsonl records rubric_id conversation_id source
        = Except.error
            (match conversation_id with
             | some cid =>
               if cid ≠ "" then
                 SelectError.conversationNotFound cid rubric_id source
               else SelectError.noRecords rubric_id source
             | none => SelectError.noRecords rubric_id source)) ∧
    (∀ selected rest,
      records.filter (keepsRecord rubric_id conversation_id)
          = selected :: rest →
      _select_record_from_jsonl records rubric_id conversation_id source
        = if selected.solution_str.isSome then Except.ok selected
          else Except.error (SelectError.missingSolutionStr source)) ∧
    (∀ e, _select_record_from_jsonl records rubric_id conversation_id source
        = Except.error e →
      (e.isCLIError = true ↔
        records.filter (keepsRecord rubric_id conversation_id) = [])) := by
  have hfilter : records.filter (keepsRecord rubric_id conversation_id)
      = records.filter (survives rubric_id conversation_id) :=
    List.filter_congr
      (fun record _ => keepsRecord_eq_survives rubric_id conversation_id record)
  refine ⟨fun record => keepsRecord_eq_survives rubric_id conversation_id record,
    ?_, ?_, ?_⟩
  · intro h
    rw [hfilter] at h
    unfold _select_record_from_jsonl
    rw [h]
    cases conversation_id with
    | none => rfl
    | some cid =>
      dsimp only
      split_ifs <;> rfl
  · intro selected rest h
    rw [hfilter] at h
    unfold _select_record_from_jsonl
    rw [h]
  · intro e he
    rw [hfilter]
    unfold _select_record_from_jsonl at he
    cases hf : records.filter (survives rubric_id conversation_id) with
    | nil =>
      rw [hf] at he
      refine ⟨fun _ => rfl, fun _ => ?_⟩
      cases conversation_id with
      | none =>
        injection he with h1
        rw [← h1]
        rfl
      | some cid =>
        dsimp only at he
        split_ifs at he
        · injection he with h1
          rw [← h1]
          rfl
        · injection he with h1
          rw [← h1]
          rfl
    | cons selected rest =>
      rw [hf] at he
      dsimp only at he
      split_ifs at he
      injection he with h1
      rw [← h1]
      constructor
      · intro h2
        exact absurd h2 (by simp [SelectError.isCLIError])
      · intro h2
        exact absurd h2 (by simp)

/-- C6, counterexample: on the claim's own example records (which carry no
`solution_str` key), the matching record is not returned — the source raises
`ValueError` (`"Selected record … does not contain 'solution_str'"`), which
is not a `CLIError`, even though a record survives the filters. -/
theorem select_record_cex :
    _select_record_from_jsonl
        [⟨some "a", some "1", none, none, none⟩,
         ⟨some "a", some "2", none, none, none⟩]
        "a" (some "2") "sample.jsonl"
      = Except.error (SelectError.missingSolutionStr "sample.jsonl") ∧
    SelectError.isCLIError (SelectError.missingSolutionStr "sample.jsonl")
      = false := by
  exact ⟨rfl, rfl⟩

/-- C6 witness: a concrete instance of `select_record_spec` — with
`solution_str` present, the second record is selected for conversation `"2"`,
and a nonexistent conversation id raises the conversation-specific
`CLIError`. -/
theorem select_record_witness :
    _select_record_from_jsonl
        [⟨some "a", some "1", some "s1", none, none⟩,
         ⟨some "a", some "2", some "s2", none, none⟩]
        "a" (some "2") "sample.jsonl"
      = Except.ok ⟨some "a", some "2", some "s2", none, none⟩ ∧
    _select_record_from_jsonl
        [⟨some "a", some "1", some "s1", none, none⟩,
         ⟨some "a", some "2", some "s2", none, none⟩]
        "a" (some "3") "sample.jsonl"
      = Except.error
          (SelectError.conversationNotFound "3" "a" "sample.jsonl") := by
  constructor
  · have h := (select_record_spec
      [⟨some "a", some "1", some "s1", none, none⟩,
       ⟨some "a", some "2", some "s2", none, none⟩]
      "a" (some "2") "sample.jsonl").2.2.1
      ⟨some "a", some "2", some "s2", none, none⟩ [] (by decide)
    rw [h]
    rfl
  · have h := (select_record_spec
      [⟨some "a", some "1", some "s1", none, none⟩,
       ⟨some "a", some "2", some "s2", none, none⟩]
      "a" (some "3") "sample.jsonl").2.1 (by decide)
    rw [h]
    rfl

/-- The rubric configuration fields `_build_extra_info` reads
(`RubricConfig` comes from `osmosis_ai.cli_services`; `model_info` values
are the string-valued settings the source consults). -/
structure RubricConfig where
  model_info : List (String × String)
  system_prompt : Option String := none
  rubric_text : Option String := none
  score_min : Option ℚ := none
  score_max : Option ℚ := none
  ground_truth : Option String := none
  source_label : String := ""

/-- The `extra_info` mapping `_build_extra_info` returns: the always-present
keys as fields, the conditionally-present keys (`api_key_env`, `api_key`,
`metadata`, `conversation_id`) as options. -/
structure BuiltExtraInfo where
  capture_details : Bool
  rubric : String
  score_min : ℚ
  score_max : ℚ
  model_info : List (String × String)
  rubric_source : String
  provider : String
  model : String
  api_key_env : Option String
  api_key : Option String
  metadata : Option (List (String × String))
  conversation_id : Option String
  deriving DecidableEq

/-- `str(model_info.get(key) or "").strip()`. -/
def strFieldS (m : List (String × String)) (key : String) : String :=
  pyStrip ((lookupS m key).getD "")

/-- `if isinstance(v, str) and v.strip(): d[k] = v.strip()` — the stripped
value when non-blank, else absent. -/
def truthyTrimOptStr : Option String → Option String
  | some s => if pyStrip s ≠ "" then some (pyStrip s) else none
  | none => none

/-- `if isinstance(v, str) and v: d[k] = v` — the value when non-empty,
else absent. -/
def truthyOptStr : Option String → Option String
  | some s => if s ≠ "" then some s else none
  | none => none

/-- `PROVIDER_API_KEY_ENV.get(provider_key, DEFAULT_PROVIDER_API_KEY_ENV)`
with `provider_key = provider.lower()`. -/
def tableApiKeyEnv (config : RubricConfig)
    (provider_table : List (String × String)) : String :=
  (lookupS provider_table
    (pyLower (strFieldS config.model_info "provider"))).getD "OPENAI_API_KEY"

/-- The local `api_key_env` variable of `_build_extra_info` after its
resolution step: explicit (stripped) config value when non-blank, else the
provider-table entry, else `"OPENAI_API_KEY"`. -/
def resolvedApiKeyEnv (config : RubricConfig)
    (provider_table : List (String × String)) : String :=
  if strFieldS config.model_info "api_key_env" ≠ "" then
    strFieldS config.model_info "api_key_env"
  else tableApiKeyEnv config provider_table

/-- `model_info` after `model_info["api_key_env"] = api_key_env` (written
only when the config value was blank and the resolved name is non-empty). -/
def modelInfoWithEnv (config : RubricConfig)
    (provider_table : List (String × String)) : List (String × String) :=
  if strFieldS config.model_info "api_key_env" = "" ∧
      tableApiKeyEnv config provider_table ≠ "" then
    setS config.model_info "api_key_env" (tableApiKeyEnv config provider_table)
  else config.model_info

/-- `api_key = model_info.get("api_key") or os.getenv(api_key_env)`. -/
def resolvedApiKey (config : RubricConfig)
    (provider_table : List (String × String)) (env : String → Option String) :
    Option String :=
  match lookupS (modelInfoWithEnv config provider_table) "api_key" with
  | some s =>
    if s ≠ "" then some s else env (resolvedApiKeyEnv config provider_table)
  | none => env (resolvedApiKeyEnv config provider_table)

/-- `model_info` after
`if isinstance(api_key, str) and api_key: model_info["api_key"] = api_key`. -/
def modelInfoWithKey (config : RubricConfig)
    (provider_table : List (String × String)) (env : String → Option String) :
    List (String × String) :=
  match resolvedApiKey config provider_table env with
  | some s =>
    if s ≠ "" then setS (modelInfoWithEnv config provider_table) "api_key" s
    else modelInfoWithEnv config provider_table
  | none => modelInfoWithEnv config provider_table

/-- `model_info` after
`if config.system_prompt and "system_prompt" not in model_info: …`. -/
def modelInfoFinal (config : RubricConfig)
    (provider_table : List (String × String)) (env : String → Option String) :
    List (String × String) :=
  match config.system_prompt with
  | some sp =>
    if sp ≠ "" ∧
        (lookupS (modelInfoWithKey config provider_table env)
          "system_prompt").isNone then
      setS (modelInfoWithKey config provider_table env) "system_prompt" sp
    else modelInfoWithKey config provider_table env
  | none => modelInfoWithKey config provider_table env

/-- `_build_extra_info` from `src/reward_rubric/reward_rubric.py` (the
process environment and the provider default table are explicit parameters;
the `isinstance` type checks are discharged by the typed embedding; the
source checks the rubric text after assembling `model_info`, which is
pure, so checking it in sequence here is equivalent). -/
def _build_extra_info (config : RubricConfig) (record : DatasetRecord)
    (capture_details : Bool) (provider_table : List (String × String))
    (env : String → Option String) : Except String BuiltExtraInfo :=
  if strFieldS config.model_info "provider" = "" ∨
      strFieldS config.model_info "model" = "" then
    Except.error "Model provider and identifier must be set in the config."
  else if pyStrip (config.rubric_text.getD "") = "" then
    Except.error "Rubric config must provide rubric text."
  else
    Except.ok
      ⟨capture_details,
       pyStrip (config.rubric_text.getD ""),
       config.score_min.getD 0,
       config.score_max.getD 1,
       modelInfoFinal config provider_table env,
       config.source_label,
       strFieldS config.model_info "provider",
       strFieldS config.model_info "model",
       truthyTrimOptStr
         (lookupS (modelInfoFinal config provider_table env) "api_key_env"),
       truthyOptStr
         (lookupS (modelInfoFinal config provider_table env) "api_key"),
       record.metadata,
       record.conversation_id.map pyStrip⟩

/-- The claim's resolution of `api_key`, phrased on the raw config: the
config's `api_key` when present and truthy, otherwise the environment value
bound to the resolved `api_key_env`. -/
def resolvedApiKeySpec (config : RubricConfig)
    (provider_table : List (String × String)) (env : String → Option String) :
    Option String :=
  match lookupS config.model_info "api_key" with
  | some s =>
    if s ≠ "" then some s else env (resolvedApiKeyEnv config provider_table)
  | none => env (resolvedApiKeyEnv config provider_table)

/-- The `api_key_env` entry the built `extra_info` carries, per the claim's
resolution order. -/
def storedApiKeyEnv (config : RubricConfig)
    (provider_table : List (String × String)) : Option String :=
  if strFieldS config.model_info "api_key_env" ≠ "" then
    some (strFieldS config.model_info "api_key_env")
  else truthyTrimOptStr (some (tableApiKeyEnv config provider_table))

theorem lookupS_modelInfoWithEnv_api_key (config : RubricConfig)
    (provider_table : List (String × String)) :
    lookupS (modelInfoWithEnv config provider_table) "api_key"
      = lookupS config.model_info "api_key" := by
  unfold modelInfoWithEnv
  split_ifs with h
  · exact lookupS_setS_ne _ _ _ _ (by decide)
  · rfl

theorem lookupS_modelInfoWithKey_api_key_env (config : RubricConfig)
    (provider_table : List (String × String)) (env : String → Option String) :
    lookupS (modelInfoWithKey config provider_table env) "api_key_env"
      = lookupS (modelInfoWithEnv config provider_table) "api_key_env" := by
  unfold modelInfoWithKey
  cases resolvedApiKey config provider_table env with
  | none => rfl
  | some s =>
    dsimp only
    split_ifs with h
    · exact lookupS_setS_ne _ _ _ _ (by decide)
    · rfl

theorem lookupS_modelInfoFinal_api_key_env (config : RubricConfig)
    (provider_table : List (String × String)) (env : String → Option String) :
    lookupS (modelInfoFinal config provider_table env) "api_key_env"
      = lookupS (modelInfoWithKey config provider_table env) "api_key_env" := by
  unfold modelInfoFinal
  cases config.system_prompt with
  | none => rfl
  | some sp =>
    dsimp only
    split_ifs with h
    · exact lookupS_setS_ne _ _ _ _ (by decide)
    · rfl

theorem lookupS_modelInfoFinal_api_key (config : RubricConfig)
    (provider_table : List (String × String)) (env : String → Option String) :
    lookupS (modelInfoFinal config provider_table env) "api_key"
      = lookupS (modelInfoWithKey config provider_table env) "api_key" := by
  unfold modelInfoFinal
  cases config.system_prompt with
  | none => rfl
  | some sp =>
    dsimp only
    split_ifs with h
    · exact lookupS_setS_ne _ _ _ _ (by decide)
    · rfl

theorem resolvedApiKey_eq_spec (config : RubricConfig)
    (provider_table : List (String × String)) (env : String → Option String) :
    resolvedApiKey config provider_table env
      = resolvedApiKeySpec config provider_table env := by
  unfold resolvedApiKey resolvedApiKeySpec
  rw [lookupS_modelInfoWithEnv_api_key]

/-- C5, amended: `_build_extra_info` raises `ValueError` when the provider or
model field is missing or blank; when both are set (and the config supplies
rubric text, which the function also insists on), it succeeds and the built
`extra_info` carries `api_key_env` resolved as: explicit config value when
non-blank, else provider-table entry for the lowercased provider, else
`"OPENAI_API_KEY"` — and `api_key` resolved as: the config's `api_key` when
present and truthy, else the environment value bound to the resolved
`api_key_env`. -/
theorem build_extra_info_spec (config : RubricConfig) (record : DatasetRecord)
    (capture_details : Bool) (provider_table : List (String × String))
    (env : String → Option String) :
    (strFieldS config.model_info "provider" = "" ∨
        strFieldS config.model_info "model" = "" →
      _build_extra_info config record capture_details provider_table env
        = Except.error
            "Model provider and identifier must be set in the config.") ∧
    (strFieldS config.model_info "provider" ≠ "" →
      strFieldS config.model_info "model" ≠ "" →
      pyStrip (config.rubric_text.getD "") ≠ "" →
      ∃ out,
        _build_extra_info config record capture_details provider_table env
            = Except.ok out ∧
          out.api_key_env = storedApiKeyEnv config provider_table ∧
          out.api_key
            = truthyOptStr (resolvedApiKeySpec config provider_table env)) := by
  constructor
  · intro h
    unfold _build_extra_info
    rw [if_pos h]
  · intro hp hm hr
    unfold _build_extra_info
    rw [if_neg (by push_neg; exact ⟨hp, hm⟩), if_neg hr]
    refine ⟨_, rfl, ?_, ?_⟩
    · show truthyTrimOptStr
          (lookupS (modelInfoFinal config provider_table env) "api_key_env")
        = storedApiKeyEnv config provider_table
      rw [lookupS_modelInfoFinal_api_key_env,
        lookupS_modelInfoWithKey_api_key_env]
      by_cases he : strFieldS config.model_info "api_key_env" = ""
      · by_cases ht : tableApiKeyEnv config provider_table = ""
        · unfold modelInfoWithEnv storedApiKeyEnv
          rw [if_neg (by simp [ht]), if_neg (by simp [he]), ht]
          cases hl : lookupS config.model_info "api_key_env" with
          | none => rfl
          | some s0 =>
            have hs0 : pyStrip s0 = "" := by
              have he2 := he
              unfold strFieldS at he2
              rw [hl] at he2
              exact he2
            show (if pyStrip s0 ≠ "" then some (pyStrip s0) else none)
              = (if pyStrip "" ≠ "" then some (pyStrip "") else none)
            rw [hs0]
            rfl
        · unfold modelInfoWithEnv storedApiKeyEnv
          rw [if_pos ⟨he, ht⟩, lookupS_setS_self, if_neg (by simp [he])]
      · unfold modelInfoWithEnv storedApiKeyEnv
        rw [if_neg (fun hc => he hc.1), if_pos he]
        cases hl : lookupS config.model_info "api_key_env" with
        | none =>
          exfalso
          apply he
          unfold strFieldS
          rw [hl]
          rfl
        | some s0 =>
          have hs0 : strFieldS config.model_info "api_key_env" = pyStrip s0 := by
            unfold strFieldS
            rw [hl]
            rfl
          rw [hs0]
          show (if pyStrip s0 ≠ "" then some (pyStrip s0) else none)
            = some (pyStrip s0)
          rw [if_pos (by rw [← hs0]; exact he)]
    · show truthyOptStr
          (lookupS (modelInfoFinal config provider_table env) "api_key")
        = truthyOptStr (resolvedApiKeySpec config provider_table env)
      rw [lookupS_modelInfoFinal_api_key, ← resolvedApiKey_eq_spec]
      unfold modelInfoWithKey
      cases hk : resolvedApiKey config provider_table env with
      | none =>
        dsimp only
        rw [lookupS_modelInfoWithEnv_api_key]
        unfold resolvedApiKey at hk
        rw [lookupS_modelInfoWithEnv_api_key] at hk
        cases hl : lookupS config.model_info "api_key" with
        | none => rfl
        | some s =>
          rw [hl] at hk
          dsimp only at hk
          by_cases hs : s ≠ ""
          · rw [if_pos hs] at hk
            exact absurd hk (by simp)
          · push_neg at hs
            subst hs
            rfl
      | some s =>
        dsimp only
        by_cases hs : s ≠ ""
        · rw [if_pos hs, lookupS_setS_self]
        · push_neg at hs
          subst hs
          rw [if_neg (by simp), lookupS_modelInfoWithEnv_api_key]
          unfold resolvedApiKey at hk
          rw [lookupS_modelInfoWithEnv_api_key] at hk
          cases hl : lookupS config.model_info "api_key" with
          | none => rfl
          | some u =>
            rw [hl] at hk
            dsimp only at hk
            by_cases hu : u ≠ ""
            · rw [if_pos hu] at hk
              injection hk with h2
              exact absurd h2 hu
            · push_neg at hu
              subst hu
              rfl

/-- C5, counterexample: with the claim's literal `model_info =
{"provider": "openai"}` (no `model` key) and `OPENAI_API_KEY=sk-test` in the
environment, `_build_extra_info` raises `ValueError` — per its own
provider/model validation — instead of resolving any `api_key`. -/
theorem build_extra_info_cex :
    _build_extra_info
        ⟨[("provider", "openai")], none, some "Grade the response.",
          none, none, none, "config"⟩
        ⟨none, none, some "sol", none, none⟩ true
        [("openai", "OPENAI_API_KEY")]
        (fun key => if key = "OPENAI_API_KEY" then some "sk-test" else none)
      = Except.error
          "Model provider and identifier must be set in the config." := by
  rfl

/-- C5 witness: a concrete instance of `build_extra_info_spec` — with
`model_info = {"provider": "openai", "model": "gpt-4o"}` and
`OPENAI_API_KEY=sk-test`, the resolved `api_key` is `"sk-test"`. -/
theorem build_extra_info_witness :
    Except.map BuiltExtraInfo.api_key
        (_build_extra_info
          ⟨[("provider", "openai"), ("model", "gpt-4o")], none,
            some "Grade the response.", none, none, none, "config"⟩
          ⟨none, none, some "sol", none, none⟩ true
          [("openai", "OPENAI_API_KEY")]
          (fun key => if key = "OPENAI_API_KEY" then some "sk-test" else none))
      = Except.ok (some "sk-test") := by
  obtain ⟨out, hok, henv, hkey⟩ :=
    (build_extra_info_spec
      ⟨[("provider", "openai"), ("model", "gpt-4o")], none,
        some "Grade the response.", none, none, none, "config"⟩
      ⟨none, none, some "sol", none, none⟩ true
      [("openai", "OPENAI_API_KEY")]
      (fun key => if key = "OPENAI_API_KEY" then some "sk-test" else none)).2
      (by decide) (by decide) (by decide)
  rw [hok]
  show Except.ok out.api_key = Except.ok (some "sk-test")
  rw [hkey]
  rfl

/-- Python values as they appear in the `extra_info` mapping and in the
scorer's result (strings, numbers, booleans, nested dicts). -/
inductive Val where
  | str (s : String)
  | num (q : ℚ)
  | bool (b : Bool)
  | dict (entries : List (String × Val))

def lookupV : List (String × Val) → String → Option Val
  | [], _ => none
  | (k, v) :: t, key => if k == key then some v else lookupV t key

/-- `d[k] = v` on a Python dict: replace the first binding or append. -/
def setV : List (String × Val) → String → Val → List (String × Val)
  | [], key, v => [(key, v)]
  | (k, w) :: t, key, v =>
    if k == key then (k, v) :: t else (k, w) :: setV t key v

/-- Python truthiness of an optional dict entry (`bool(d.get(k))`). -/
def pyTruthy : Option Val → Bool
  | none => false
  | some (Val.str s) => s ≠ ""
  | some (Val.num q) => q ≠ 0
  | some (Val.bool b) => b
  | some (Val.dict d) => ¬ d.isEmpty

/-- Python `float(x)` on the values the source feeds it (numbers and
booleans; anything else fails). -/
def pyFloat : Val → Option ℚ
  | Val.num q => some q
  | Val.bool b => some (if b then 1 else 0)
  | _ => none

/-- `score_with_hosted_model` from `src/reward_rubric/reward_rubric.py`.
The external scorer `evaluate_rubric` is modelled as the parameter `result`
(its fixed return value); the `MissingAPIKeyError` re-raise path belongs to
the scorer and is out of scope here. On success the function returns the
score together with the (possibly annotated in place) `extra_info`. -/
def score_with_hosted_model (solution_str ground_truth : String)
    (extra_info : List (String × Val)) (result : Val) :
    Except String (ℚ × List (String × Val)) :=
  let capture_details := pyTruthy (lookupV extra_info "capture_details")
  match lookupV extra_info "model_info" with
  | some (Val.dict _) =>
    if capture_details then
      match result with
      | Val.dict d =>
        match lookupV d "score" with
        | some v =>
          match pyFloat v with
          | some q =>
            Except.ok (q, setV extra_info "result_details" result)
          | none => Except.error "float() argument must be a number"
        | none => Except.error "KeyError: score"
      | _ => Except.error "result is not subscriptable"
    else
      match pyFloat result with
      | some q => Except.ok (q, extra_info)
      | none => Except.error "float() argument must be a number"
  | _ => Except.error "extra_info must include a model_info mapping"

theorem lookupV_setV_self (m : List (String × Val)) (key : String) (v : Val) :
    lookupV (setV m key v) key = some v := by
  induction m with
  | nil => simp [lookupV, setV]
  | cons kv t ih =>
    obtain ⟨k, w⟩ := kv
    by_cases h : (k == key) = true
    · simp [setV, lookupV, h]
    · simp only [setV, h, Bool.false_eq_true, if_false, lookupV]
      exact ih

theorem lookupV_setV_ne (m : List (String × Val)) (key other : String) (v : Val)
    (h : key ≠ other) : lookupV (setV m key v) other = lookupV m other := by
  induction m with
  | nil => simp [lookupV, setV, h]
  | cons kv t ih =>
    obtain ⟨k, w⟩ := kv
    by_cases hk : (k == key) = true
    · have hkk : k = key := by simpa using hk
      have hko : (k == other) = false := by simp [hkk, h]
      simp only [setV, hk, if_true, lookupV, hko, Bool.false_eq_true, if_false]
    · simp only [setV, hk, Bool.false_eq_true, if_false, lookupV]
      by_cases ho : (k == other) = true
      · simp [ho]
      · simp [ho, ih]

/-- C7: with the external scorer modelled as a fixed `result`, when
`extra_info["capture_details"]` is truthy the structured result is stored
under `extra_info["result_details"]`, every other key of `extra_info` is
unchanged, and the score is `float(result["score"])`; when it is falsy,
`extra_info` is returned untouched and the score is `float(result)`. -/
theorem score_with_hosted_model_spec (solution_str ground_truth : String)
    (extra_info : List (String × Val)) (result : Val)
    (mi : List (String × Val))
    (hmi : lookupV extra_info "model_info" = some (Val.dict mi)) :
    (pyTruthy (lookupV extra_info "capture_details") = true →
      ∀ (d : List (String × Val)) (q : ℚ), result = Val.dict d →
        lookupV d "score" = some (Val.num q) →
        score_with_hosted_model solution_str ground_truth extra_info result
            = Except.ok (q, setV extra_info "result_details" result) ∧
          lookupV (setV extra_info "result_details" result) "result_details"
            = some result ∧
          ∀ key, key ≠ "result_details" →
            lookupV (setV extra_info "result_details" result) key
              = lookupV extra_info key) ∧
    (pyTruthy (lookupV extra_info "capture_details") = false →
      ∀ q : ℚ, result = Val.num q →
        score_with_hosted_model solution_str ground_truth extra_info result
          = Except.ok (q, extra_info)) := by
  constructor
  · intro hcap d q hres hscore
    refine ⟨?_, lookupV_setV_self extra_info "result_details" result,
      fun key hkey => lookupV_setV_ne extra_info "result_details" key result
        (fun h => hkey h.symm)⟩
    unfold score_with_hosted_model
    rw [hmi, hcap, hres]
    dsimp only
    rw [if_pos rfl, hscore]
    rfl
  · intro hcap q hres
    unfold score_with_hosted_model
    rw [hmi, hcap, hres]
    dsimp only
    rw [if_neg (by simp)]
    rfl

/-- C7 witness: a concrete instance of `score_with_hosted_model_spec` — with
`capture_details` truthy the structured result lands in `result_details`,
the `model_info` key is untouched, and the score is `float(result["score"])`;
a second instance with `capture_details` falsy returns `extra_info`
unchanged. -/
theorem score_with_hosted_model_witness :
    score_with_hosted_model "sol" "truth"
        [("capture_details", Val.bool true), ("model_info", Val.dict [])]
        (Val.dict [("score", Val.num 0.8), ("explanation", Val.str "good")])
      = Except.ok (0.8,
          [("capture_details", Val.bool true), ("model_info", Val.dict []),
           ("result_details",
            Val.dict [("score", Val.num 0.8),
                      ("explanation", Val.str "good")])]) ∧
    lookupV
        (setV [("capture_details", Val.bool true), ("model_info", Val.dict [])]
          "result_details"
          (Val.dict [("score", Val.num 0.8), ("explanation", Val.str "good")]))
        "model_info"
      = some (Val.dict []) ∧
    score_with_hosted_model "sol" "truth"
        [("capture_details", Val.bool false), ("model_info", Val.dict [])]
        (Val.num 0.4)
      = Except.ok (0.4,
          [("capture_details", Val.bool false), ("model_info", Val.dict [])]) := by
  have h1 := (score_with_hosted_model_spec "sol" "truth"
    [("capture_details", Val.bool true), ("model_info", Val.dict [])]
    (Val.dict [("score", Val.num 0.8), ("explanation", Val.str "good")])
    [] rfl).1 rfl
    [("score", Val.num 0.8), ("explanation", Val.str "good")] 0.8 rfl rfl
  have h2 := (score_with_hosted_model_spec "sol" "truth"
    [("capture_details", Val.bool false), ("model_info", Val.dict [])]
    (Val.num 0.4) [] rfl).2 rfl 0.4 rfl
  refine ⟨?_, ?_, h2⟩
  · rw [h1.1]
    rfl
  · rw [h1.2.2 "model_info" (by decide)]
    rfl
